import Mathlib

/-!
Shallow embedding of the booking-conflict and billing engine of the hotel
management system (hotel.py, booking.py, room.py, guest.py).

Modelling conventions.  Calendar dates are integers (a day count), so the
Python `(check_out - check_in).days` becomes integer subtraction and date
comparisons become integer comparisons.  Monetary values are rationals.
The outcome of parsing a user-supplied date string with `strptime` is
modelled as `Option Int` (`none` for a string the parser rejects); for the
update operations, whose date arguments may also be absent or blank
(meaning "keep the current value"), the argument is `Option (Option Int)`
with `none` for "absent or blank".  A raised `ValueError` is `Except.error`,
a `None` return is `Option.none`.  The `uuid4()`-generated ids and the
`datetime.now()` clock are nondeterministic inputs of the original and are
passed in as explicit parameters.  `save_data` writes to disk and never
changes the in-memory collections, so it is the identity here.
-/

structure Room where
  number : String
  type : String
  price : Rat
  is_occupied : Bool
  deriving Repr, DecidableEq

structure Guest where
  guest_id : String
  name : String
  phone : String
  email : String
  address : String
  deriving Repr, DecidableEq

structure Booking where
  booking_id : String
  guest_id : String
  room_number : String
  check_in : Int
  check_out : Int
  is_active : Bool
  deriving Repr, DecidableEq

/-- Bill as in hotel.py: `status` is the literal string `"UNPAID"` or
`"PAID"`, `payment_date` is `None` until settlement. -/
structure Bill where
  bill_id : String
  booking_id : String
  amount : Rat
  status : String
  payment_date : Option Int
  deriving Repr, DecidableEq

/-- The in-memory collections held by `HotelManager`. -/
structure HotelState where
  rooms : List Room
  guests : List Guest
  bookings : List Booking
  bills : List Bill
  deriving Repr, DecidableEq

/-- HotelManager.find_room: first room with the given number. -/
def find_room (rooms : List Room) (room_number : String) : Option Room :=
  rooms.find? (fun r => r.number == room_number)

/-- HotelManager.find_guest: first guest with the given id. -/
def find_guest (guests : List Guest) (guest_id : String) : Option Guest :=
  guests.find? (fun g => g.guest_id == guest_id)

/-- HotelManager.find_booking: first booking with the given id. -/
def find_booking (bookings : List Booking) (booking_id : String) : Option Booking :=
  bookings.find? (fun b => b.booking_id == booking_id)

/-- The lookup loop at the start of HotelManager.process_payment:
first bill with the given id. -/
def find_bill (bills : List Bill) (bill_id : String) : Option Bill :=
  bills.find? (fun b => b.bill_id == bill_id)

/-- HotelManager.is_room_available: scan every booking on the room
(skipping `exclude_booking_id` when given) for a half-open overlap
`check_in < other.check_out and check_out > other.check_in`. -/
def is_room_available (bookings : List Booking) (room_number : String)
    (check_in check_out : Int) (exclude_booking_id : Option String) : Bool :=
  bookings.all (fun b =>
    if b.room_number == room_number then
      if (match exclude_booking_id with
          | some e => b.booking_id == e
          | none => false) then
        true
      else
        !(check_in < b.check_out && check_out > b.check_in)
    else
      true)

/-- HotelManager.add_room. -/
def add_room (s : HotelState) (room_number room_type : String) (price : Rat) :
    Bool × HotelState :=
  match find_room s.rooms room_number with
  | some _ => (false, s)
  | none =>
    (true, { s with rooms := s.rooms ++ [Room.mk room_number room_type price false] })

/-- In-place mutation of the room found by HotelManager.update_room: the
first room with the given number gets its type and/or price replaced.
`room_type = none` models an absent/blank argument; `price = some none`
models a non-blank price string `float` rejects (price left unchanged). -/
def set_room : List Room → String → Option String → Option (Option Rat) → List Room
  | [], _, _, _ => []
  | r :: rest, room_number, room_type, price =>
    if r.number == room_number then
      { r with
        type := match room_type with | some t => t | none => r.type,
        price := match price with | some (some p) => p | _ => r.price } :: rest
    else
      r :: set_room rest room_number room_type price

/-- HotelManager.update_room. -/
def update_room (s : HotelState) (room_number : String) (room_type : Option String)
    (price : Option (Option Rat)) : Bool × HotelState :=
  match find_room s.rooms room_number with
  | none => (false, s)
  | some _ => (true, { s with rooms := set_room s.rooms room_number room_type price })

/-- HotelManager.add_guest; the generated guest id is a parameter. -/
def add_guest (s : HotelState) (new_guest_id name phone email address : String) :
    String × HotelState :=
  (new_guest_id,
    { s with guests := s.guests ++ [Guest.mk new_guest_id name phone email address] })

/-- HotelManager.create_booking; the generated booking id is a parameter,
the two date arguments are parse results.  `Except.error` is the raised
`ValueError`, `Except.ok none` the declined `None` return. -/
def create_booking (s : HotelState) (new_booking_id guest_id room_number : String)
    (check_in check_out : Option Int) : Except String (Option String) × HotelState :=
  match find_guest s.guests guest_id with
  | none => (Except.ok none, s)
  | some _ =>
    match find_room s.rooms room_number with
    | none => (Except.ok none, s)
    | some _ =>
      match check_in, check_out with
      | some ci, some co =>
        if co ≤ ci then
          (Except.error "Check-out date must be after check-in date.", s)
        else if !(is_room_available s.bookings room_number ci co none) then
          (Except.ok none, s)
        else
          (Except.ok (some new_booking_id),
            { s with bookings :=
                s.bookings ++ [Booking.mk new_booking_id guest_id room_number ci co true] })
      | _, _ => (Except.error "Invalid date format. Please use YYYY-MM-DD format.", s)

/-- In-place mutation of the booking found by HotelManager.update_booking:
the first booking with the given id gets the new dates. -/
def set_booking_dates : List Booking → String → Int → Int → List Booking
  | [], _, _, _ => []
  | b :: rest, booking_id, ci, co =>
    if b.booking_id == booking_id then
      { b with check_in := ci, check_out := co } :: rest
    else
      b :: set_booking_dates rest booking_id ci co

/-- HotelManager.update_booking.  A date argument is `none` when absent or
blank (keep the current value), `some none` when present but rejected by
`strptime`, `some (some d)` when it parses to `d`. -/
def update_booking (s : HotelState) (booking_id : String)
    (check_in check_out : Option (Option Int)) : Except String Bool × HotelState :=
  match find_booking s.bookings booking_id with
  | none => (Except.ok false, s)
  | some booking =>
    match check_in.getD (some booking.check_in) with
    | none => (Except.error "Invalid check-in date format. Please use YYYY-MM-DD format.", s)
    | some ci =>
      match check_out.getD (some booking.check_out) with
      | none => (Except.error "Invalid check-out date format. Please use YYYY-MM-DD format.", s)
      | some co =>
        if co ≤ ci then
          (Except.error "Check-out date must be after check-in date.", s)
        else if !(is_room_available s.bookings booking.room_number ci co (some booking_id)) then
          (Except.ok false, s)
        else
          (Except.ok true, { s with bookings := set_booking_dates s.bookings booking_id ci co })

/-- HotelManager.cancel_booking: hard delete of every entry with the id. -/
def cancel_booking (s : HotelState) (booking_id : String) : Bool × HotelState :=
  match find_booking s.bookings booking_id with
  | none => (false, s)
  | some _ =>
    (true, { s with bookings := s.bookings.filter (fun b => !(b.booking_id == booking_id)) })

/-- HotelManager.generate_bill; the generated bill id is a parameter. -/
def generate_bill (s : HotelState) (new_bill_id booking_id : String) :
    Option Bill × HotelState :=
  match find_booking s.bookings booking_id with
  | none => (none, s)
  | some booking =>
    match s.bills.find? (fun bill => bill.booking_id == booking_id) with
    | some bill => (some bill, s)
    | none =>
      match find_room s.rooms booking.room_number with
      | none => (none, s)
      | some room =>
        let days : Int := booking.check_out - booking.check_in
        let amount : Rat := (days : Rat) * room.price
        let bill : Bill := Bill.mk new_bill_id booking_id amount "UNPAID" none
        (some bill, { s with bills := s.bills ++ [bill] })

/-- In-place mutation of the bill found by HotelManager.process_payment:
the first bill with the given id becomes PAID today. -/
def set_paid : List Bill → String → Int → List Bill
  | [], _, _ => []
  | bill :: rest, bill_id, today =>
    if bill.bill_id == bill_id then
      { bill with status := "PAID", payment_date := some today } :: rest
    else
      bill :: set_paid rest bill_id today

/-- HotelManager.process_payment; `today` is the `datetime.now().date()`
clock reading. -/
def process_payment (s : HotelState) (today : Int) (bill_id : String) (amount : Rat) :
    Bool × HotelState :=
  match find_bill s.bills bill_id with
  | none => (false, s)
  | some bill =>
    if bill.status == "PAID" then (false, s)
    else if amount < bill.amount then (false, s)
    else (true, { s with bills := set_paid s.bills bill_id today })

/-- The aggregation loop of HotelManager.generate_revenue_report, returning
(total_revenue, paid_bills, unpaid_bills).  Bills whose booking can no
longer be resolved are skipped entirely (`if not booking: continue`). -/
def revenue_scan (bookings : List Booking) (lo hi : Int) : List Bill → Rat × Nat × Nat
  | [] => (0, 0, 0)
  | bill :: rest =>
    let acc := revenue_scan bookings lo hi rest
    match find_booking bookings bill.booking_id with
    | none => acc
    | some booking =>
      let paid_hit : Bool := bill.status == "PAID" &&
        (match bill.payment_date with
         | some pd => lo ≤ pd && pd ≤ hi
         | none => false)
      let unpaid_hit : Bool := bill.status == "UNPAID" &&
        (booking.check_in ≤ hi && lo ≤ booking.check_out)
      (if paid_hit then acc.1 + bill.amount else acc.1,
       if paid_hit then acc.2.1 + 1 else acc.2.1,
       if unpaid_hit then acc.2.2 + 1 else acc.2.2)

/-- HotelManager.generate_revenue_report: date parsing and range validation
(both raise `ValueError`) followed by the aggregation scan. -/
def generate_revenue_report (s : HotelState) (start_date end_date : Option Int) :
    Except String (Rat × Nat × Nat) :=
  match start_date, end_date with
  | some lo, some hi =>
    if hi < lo then Except.error "End date must be after start date."
    else Except.ok (revenue_scan s.bookings lo hi s.bills)
  | _, _ => Except.error "Invalid date format. Please use YYYY-MM-DD format."

/-- One mutating HotelManager operation.  The generated uuid of
`create_booking` is assumed fresh among the stored booking ids. -/
inductive Step : HotelState → HotelState → Prop
  | addRoom (s : HotelState) (n t : String) (p : Rat) :
      Step s (add_room s n t p).2
  | updateRoom (s : HotelState) (n : String) (t : Option String)
      (p : Option (Option Rat)) :
      Step s (update_room s n t p).2
  | addGuest (s : HotelState) (gid n ph em ad : String) :
      Step s (add_guest s gid n ph em ad).2
  | createBooking (s : HotelState) (new_id gid rn : String) (ci co : Option Int)
      (fresh : ∀ b ∈ s.bookings, b.booking_id ≠ new_id) :
      Step s (create_booking s new_id gid rn ci co).2
  | updateBooking (s : HotelState) (bid : String) (ci co : Option (Option Int)) :
      Step s (update_booking s bid ci co).2
  | cancelBooking (s : HotelState) (bid : String) :
      Step s (cancel_booking s bid).2
  | generateBill (s : HotelState) (new_id bid : String) :
      Step s (generate_bill s new_id bid).2
  | processPayment (s : HotelState) (today : Int) (bid : String) (amt : Rat) :
      Step s (process_payment s today bid amt).2

/-- The empty store the manager starts from when no data files exist. -/
def initial_state : HotelState := HotelState.mk [] [] [] []

/-- States reachable from the empty store by manager operations. -/
inductive Reachable : HotelState → Prop
  | init : Reachable initial_state
  | step {s t : HotelState} : Reachable s → Step s t → Reachable t

/-- Separation of two stored bookings: distinct ids, and no half-open
date overlap when they are on the same room. -/
def BookingSep (a b : Booking) : Prop :=
  a.booking_id ≠ b.booking_id ∧
    (a.room_number = b.room_number →
      ¬(a.check_in < b.check_out ∧ a.check_out > b.check_in))

/-- A bill's status agrees with its payment date. -/
def BillOk (bill : Bill) : Prop :=
  bill.status = "PAID" ↔ bill.payment_date ≠ none

/-- The store invariant maintained by the manager's operations. -/
def StoreInv (s : HotelState) : Prop :=
  s.bookings.Pairwise BookingSep ∧ ∀ bill ∈ s.bills, BillOk bill

lemma availability_true_iff (bookings : List Booking) (rn : String) (ci co : Int)
    (excl : Option String) :
    is_room_available bookings rn ci co excl = true ↔
      ∀ b ∈ bookings, b.room_number = rn → excl ≠ some b.booking_id →
        ¬(ci < b.check_out ∧ co > b.check_in) := by
  unfold is_room_available
  rw [List.all_eq_true]
  apply forall_congr'
  intro b
  apply imp_congr_right
  intro _
  by_cases hroom : b.room_number = rn
  · cases excl with
    | none =>
      simp [hroom]
      omega
    | some e =>
      by_cases hid : b.booking_id = e
      · subst hid
        simp [hroom]
      · simp [hroom, hid, Ne.symm hid]
        omega
  · simp [hroom]

/-- C2: `is_room_available` is exactly the half-open overlap scan: for dates
with `check_in < check_out` it returns `false` iff some stored booking on the
room, other than the excluded one when one is given, satisfies
`check_in < other.check_out` and `check_out > other.check_in`; in particular
a range starting at or after every such booking's check-out (back-to-back)
is reported available. -/
theorem is_room_available_characterization (bookings : List Booking) (rn : String)
    (ci co : Int) (excl : Option String) (h : ci < co) :
    (is_room_available bookings rn ci co excl = false ↔
      ∃ b ∈ bookings, b.room_number = rn ∧ excl ≠ some b.booking_id ∧
        ci < b.check_out ∧ co > b.check_in) ∧
    ((∀ b ∈ bookings, b.room_number = rn → excl ≠ some b.booking_id →
        b.check_out ≤ ci) →
      is_room_available bookings rn ci co excl = true) := by
  constructor
  · constructor
    · intro hfalse
      by_contra hno
      push_neg at hno
      have htrue : is_room_available bookings rn ci co excl = true := by
        rw [availability_true_iff]
        intro b hb hroom hexcl
        have := hno b hb hroom hexcl
        omega
      rw [hfalse] at htrue
      exact Bool.false_ne_true htrue
    · rintro ⟨b, hb, hroom, hexcl, h1, h2⟩
      cases hav : is_room_available bookings rn ci co excl with
      | false => rfl
      | true =>
        have := (availability_true_iff bookings rn ci co excl).mp hav b hb hroom hexcl
        exact absurd ⟨h1, h2⟩ this
  · intro hback
    rw [availability_true_iff]
    intro b hb hroom hexcl
    have := hback b hb hroom hexcl
    omega

/-- Witness for C2 at the spec's example: room "101" with a booking on days
1..5 (2024-06-01 to 2024-06-05), queried for days 5..8. -/
theorem is_room_available_characterization_witness :
    (5 : Int) < 8 ∧
    ((is_room_available [Booking.mk "b1" "g1" "101" 1 5 true] "101" 5 8 none = false ↔
      ∃ b ∈ [Booking.mk "b1" "g1" "101" 1 5 true], b.room_number = "101" ∧
        (none : Option String) ≠ some b.booking_id ∧
        (5 : Int) < b.check_out ∧ (8 : Int) > b.check_in) ∧
    ((∀ b ∈ [Booking.mk "b1" "g1" "101" 1 5 true], b.room_number = "101" →
        (none : Option String) ≠ some b.booking_id → b.check_out ≤ 5) →
      is_room_available [Booking.mk "b1" "g1" "101" 1 5 true] "101" 5 8 none = true)) :=
  ⟨by decide, is_room_available_characterization _ _ _ _ _ (by decide)⟩

/-- C6: create_booking called with an existing guest and room and parseable
dates whose check-out is not strictly after check-in fails with the raised
invalid-range ValueError (modelled as Except.error, distinguishable from the
declined Except.ok none) and leaves the store unchanged. -/
theorem create_booking_reversed_range (s : HotelState) (new_id gid rn : String)
    (ci co : Int) (hg : (find_guest s.guests gid).isSome = true)
    (hr : (find_room s.rooms rn).isSome = true) (h : co ≤ ci) :
    ∃ msg, create_booking s new_id gid rn (some ci) (some co) = (Except.error msg, s) := by
  obtain ⟨g, hg'⟩ := Option.isSome_iff_exists.mp hg
  obtain ⟨r, hr'⟩ := Option.isSome_iff_exists.mp hr
  refine ⟨"Check-out date must be after check-in date.", ?_⟩
  unfold create_booking
  rw [hg', hr']
  simp [h]

/-- Witness for C6 at the spec's example: check-in 2024-05-10 (day 10),
check-out 2024-05-09 (day 9). -/
theorem create_booking_reversed_range_witness :
    ((find_guest [Guest.mk "g1" "Ann" "p" "e" "a"] "g1").isSome = true ∧
     (find_room [Room.mk "101" "Single" 100 false] "101").isSome = true ∧
     (9 : Int) ≤ 10) ∧
    ∃ msg, create_booking
        (HotelState.mk [Room.mk "101" "Single" 100 false] [Guest.mk "g1" "Ann" "p" "e" "a"] [] [])
        "b1" "g1" "101" (some 10) (some 9) =
      (Except.error msg,
        HotelState.mk [Room.mk "101" "Single" 100 false] [Guest.mk "g1" "Ann" "p" "e" "a"] [] []) :=
  ⟨⟨by decide, by decide, by decide⟩,
    create_booking_reversed_range _ _ _ _ _ _ (by decide) (by decide) (by decide)⟩

/-- C9: create_booking is atomic on failure: every call either leaves the
entire store exactly as it was, or succeeds with both parsed dates, returns
the new booking id, and appends exactly that one booking. -/
theorem create_booking_atomic (s : HotelState) (new_id gid rn : String)
    (check_in check_out : Option Int) :
    (create_booking s new_id gid rn check_in check_out).2 = s ∨
    ∃ ci co, check_in = some ci ∧ check_out = some co ∧
      create_booking s new_id gid rn check_in check_out =
        (Except.ok (some new_id),
          { s with bookings := s.bookings ++ [Booking.mk new_id gid rn ci co true] }) := by
  unfold create_booking
  cases find_guest s.guests gid with
  | none => left; rfl
  | some g =>
    cases find_room s.rooms rn with
    | none => left; rfl
    | some r =>
      rcases check_in with _ | ci <;> rcases check_out with _ | co
      · left; rfl
      · left; rfl
      · left; rfl
      · by_cases hco : co ≤ ci
        · left; simp [hco]
        · by_cases hav : is_room_available s.bookings rn ci co none = true
          · right
            exact ⟨ci, co, rfl, rfl, by simp [hco, hav]⟩
          · left
            rw [Bool.not_eq_true] at hav
            simp [hco, hav]

/-- Agreement of two bookings on every stored field except `is_active`. -/
def same_except_active (a b : Booking) : Prop :=
  a.booking_id = b.booking_id ∧ a.guest_id = b.guest_id ∧
    a.room_number = b.room_number ∧ a.check_in = b.check_in ∧ a.check_out = b.check_out

/-- C10: is_room_available never reads `is_active`: two booking lists that
differ only in the `is_active` values of their entries give the same
availability answer for every room, date range and exclusion, so an
inactive booking still blocks its room for its dates. -/
theorem is_room_available_ignores_active (l1 l2 : List Booking) (rn : String)
    (ci co : Int) (excl : Option String)
    (h : List.Forall₂ same_except_active l1 l2) :
    is_room_available l1 rn ci co excl = is_room_available l2 rn ci co excl := by
  induction h with
  | nil => rfl
  | cons hab hrest ih =>
    obtain ⟨h1, h2, h3, h4, h5⟩ := hab
    simp only [is_room_available, List.all_cons] at ih ⊢
    rw [h1, h3, h4, h5, ih]

/-- Witness for C10: one booking, stored inactive in the second list. -/
theorem is_room_available_ignores_active_witness :
    List.Forall₂ same_except_active
      [Booking.mk "b1" "g1" "101" 1 5 true] [Booking.mk "b1" "g1" "101" 1 5 false] ∧
    is_room_available [Booking.mk "b1" "g1" "101" 1 5 true] "101" 4 8 none =
      is_room_available [Booking.mk "b1" "g1" "101" 1 5 false] "101" 4 8 none :=
  ⟨List.Forall₂.cons ⟨rfl, rfl, rfl, rfl, rfl⟩ List.Forall₂.nil,
    is_room_available_ignores_active _ _ _ _ _ _
      (List.Forall₂.cons ⟨rfl, rfl, rfl, rfl, rfl⟩ List.Forall₂.nil)⟩

lemma find_booking_eq_some {l : List Booking} {bid : String} {bk : Booking}
    (h : find_booking l bid = some bk) : bk ∈ l ∧ bk.booking_id = bid := by
  unfold find_booking at h
  have hp := List.find?_some h
  exact ⟨List.mem_of_find?_eq_some h, by simpa using hp⟩

lemma pairwise_ne_unique {l : List Booking}
    (hpw : l.Pairwise (fun a b => a.booking_id ≠ b.booking_id))
    {x y : Booking} (hx : x ∈ l) (hy : y ∈ l)
    (hid : x.booking_id = y.booking_id) : x = y := by
  induction l with
  | nil => simp at hx
  | cons b rest ih =>
    rw [List.pairwise_cons] at hpw
    obtain ⟨hb, hrest⟩ := hpw
    rcases List.mem_cons.mp hx with rfl | hx'
    · rcases List.mem_cons.mp hy with rfl | hy'
      · rfl
      · exact absurd hid (hb y hy')
    · rcases List.mem_cons.mp hy with rfl | hy'
      · exact absurd hid.symm (hb x hx')
      · exact ih hrest hx' hy'

lemma set_booking_dates_mem {l : List Booking} {bid : String} {ci co : Int} {x : Booking}
    (hx : x ∈ set_booking_dates l bid ci co) :
    ∃ b ∈ l, x.booking_id = b.booking_id ∧ x.room_number = b.room_number ∧
      (x = b ∨ (b.booking_id = bid ∧ x.check_in = ci ∧ x.check_out = co)) := by
  induction l with
  | nil => simp [set_booking_dates] at hx
  | cons b rest ih =>
    simp only [set_booking_dates] at hx
    by_cases hb : (b.booking_id == bid) = true
    · rw [if_pos hb] at hx
      rcases List.mem_cons.mp hx with rfl | hx'
      · exact ⟨b, List.mem_cons_self b rest, rfl, rfl, Or.inr ⟨eq_of_beq hb, rfl, rfl⟩⟩
      · exact ⟨x, List.mem_cons_of_mem _ hx', rfl, rfl, Or.inl rfl⟩
    · rw [if_neg hb] at hx
      rcases List.mem_cons.mp hx with rfl | hx'
      · exact ⟨x, List.mem_cons_self x rest, rfl, rfl, Or.inl rfl⟩
      · obtain ⟨y, hy, h1, h2, h3⟩ := ih hx'
        exact ⟨y, List.mem_cons_of_mem _ hy, h1, h2, h3⟩

lemma set_booking_dates_pairwise {bid : String} {ci co : Int} {l : List Booking}
    {bk : Booking}
    (hpw : l.Pairwise BookingSep)
    (hfind : find_booking l bid = some bk)
    (havail : ∀ b ∈ l, b.room_number = bk.room_number → b.booking_id ≠ bid →
      ¬(ci < b.check_out ∧ co > b.check_in)) :
    (set_booking_dates l bid ci co).Pairwise BookingSep := by
  induction l with
  | nil => simp [find_booking] at hfind
  | cons b rest ih =>
    rw [List.pairwise_cons] at hpw
    obtain ⟨hb, hrest⟩ := hpw
    simp only [set_booking_dates]
    by_cases hmatch : (b.booking_id == bid) = true
    · rw [if_pos hmatch]
      have hbk : bk = b := by
        unfold find_booking at hfind
        simp only [List.find?, hmatch] at hfind
        exact (Option.some.inj hfind).symm
      rw [List.pairwise_cons]
      refine ⟨?_, hrest⟩
      intro x hx
      have hsep := hb x hx
      refine ⟨hsep.1, ?_⟩
      intro hroom
      have hroom' : x.room_number = bk.room_number := by
        rw [hbk]; exact (show b.room_number = x.room_number from hroom).symm
      have hxid : x.booking_id ≠ bid := by
        intro hh
        exact hsep.1 (by rw [hh, ← eq_of_beq hmatch])
      have hno := havail x (List.mem_cons_of_mem _ hx) hroom' hxid
      show ¬(ci < x.check_out ∧ co > x.check_in)
      omega
    · rw [if_neg hmatch]
      have hbfalse : (b.booking_id == bid) = false := by
        simpa using hmatch
      have hfind' : find_booking rest bid = some bk := by
        unfold find_booking at hfind ⊢
        simpa only [List.find?, hbfalse] using hfind
      rw [List.pairwise_cons]
      refine ⟨?_, ih hrest hfind'
        (fun x hx => havail x (List.mem_cons_of_mem _ hx))⟩
      intro x hx
      obtain ⟨y, hy, hid, hroom, hcase⟩ := set_booking_dates_mem hx
      rcases hcase with rfl | ⟨hybid, hci, hco⟩
      · exact hb x hy
      · have hbkmem := (find_booking_eq_some hfind').1
        have hbkid := (find_booking_eq_some hfind').2
        have hyeq : y = bk :=
          pairwise_ne_unique (hrest.imp (fun hs => hs.1)) hy hbkmem
            (by rw [hybid, hbkid])
        have hbid : b.booking_id ≠ bid := by
          intro hh
          rw [hh] at hbfalse
          simp at hbfalse
        refine ⟨?_, ?_⟩
        · intro hh
          exact hbid (by rw [hh, hid, hybid])
        · intro hroomeq
          have hbroom : b.room_number = bk.room_number := by
            rw [hroomeq, hroom, hyeq]
          have hno := havail b (List.mem_cons_self b rest) hbroom hbid
          rw [hci, hco]
          omega

lemma set_paid_mem {l : List Bill} {bid : String} {today : Int} {x : Bill}
    (hx : x ∈ set_paid l bid today) :
    x ∈ l ∨ ∃ b ∈ l, x = { b with status := "PAID", payment_date := some today } := by
  induction l with
  | nil => simp [set_paid] at hx
  | cons b rest ih =>
    simp only [set_paid] at hx
    by_cases hb : (b.bill_id == bid) = true
    · rw [if_pos hb] at hx
      rcases List.mem_cons.mp hx with rfl | hx'
      · exact Or.inr ⟨b, List.mem_cons_self b rest, rfl⟩
      · exact Or.inl (List.mem_cons_of_mem _ hx')
    · rw [if_neg hb] at hx
      rcases List.mem_cons.mp hx with rfl | hx'
      · exact Or.inl (List.mem_cons_self _ _)
      · rcases ih hx' with h | ⟨y, hy, hxy⟩
        · exact Or.inl (List.mem_cons_of_mem _ h)
        · exact Or.inr ⟨y, List.mem_cons_of_mem _ hy, hxy⟩

lemma set_paid_keeps_amounts {l : List Bill} {bid : String} {today : Int} {bill : Bill}
    (h : bill ∈ l) :
    ∃ bill2 ∈ set_paid l bid today,
      bill2.bill_id = bill.bill_id ∧ bill2.amount = bill.amount := by
  induction l with
  | nil => simp at h
  | cons b rest ih =>
    simp only [set_paid]
    by_cases hb : (b.bill_id == bid) = true
    · rw [if_pos hb]
      rcases List.mem_cons.mp h with rfl | h'
      · exact ⟨{ bill with status := "PAID", payment_date := some today },
          List.mem_cons_self _ _, rfl, rfl⟩
      · exact ⟨bill, List.mem_cons_of_mem _ h', rfl, rfl⟩
    · rw [if_neg hb]
      rcases List.mem_cons.mp h with rfl | h'
      · exact ⟨bill, List.mem_cons_self _ _, rfl, rfl⟩
      · obtain ⟨b2, hb2, h1, h2⟩ := ih h'
        exact ⟨b2, List.mem_cons_of_mem _ hb2, h1, h2⟩

lemma step_preserves_inv {s t : HotelState} (hstep : Step s t) (hinv : StoreInv s) :
    StoreInv t := by
  obtain ⟨hpw, hbills⟩ := hinv
  cases hstep with
  | addRoom n ty p =>
    unfold add_room
    cases find_room s.rooms n with
    | none => exact ⟨hpw, hbills⟩
    | some _ => exact ⟨hpw, hbills⟩
  | updateRoom n ty p =>
    unfold update_room
    cases find_room s.rooms n with
    | none => exact ⟨hpw, hbills⟩
    | some _ => exact ⟨hpw, hbills⟩
  | addGuest gid n ph em ad =>
    exact ⟨hpw, hbills⟩
  | createBooking new_id gid rn ci co fresh =>
    unfold create_booking
    cases find_guest s.guests gid with
    | none => exact ⟨hpw, hbills⟩
    | some g =>
      cases find_room s.rooms rn with
      | none => exact ⟨hpw, hbills⟩
      | some r =>
        rcases ci with _ | cid <;> rcases co with _ | cod
        · exact ⟨hpw, hbills⟩
        · exact ⟨hpw, hbills⟩
        · exact ⟨hpw, hbills⟩
        · by_cases hord : cod ≤ cid
          · simpa [hord] using (⟨hpw, hbills⟩ : StoreInv s)
          · by_cases hav : is_room_available s.bookings rn cid cod none = true
            · have hgoal : StoreInv { s with bookings :=
                  s.bookings ++ [Booking.mk new_id gid rn cid cod true] } := by
                refine ⟨?_, hbills⟩
                rw [List.pairwise_append]
                refine ⟨hpw, by simp, ?_⟩
                intro a ha x hx
                rw [List.mem_singleton] at hx
                subst hx
                refine ⟨fresh a ha, ?_⟩
                intro hroom
                have hroom' : a.room_number = rn := hroom
                have hno := (availability_true_iff s.bookings rn cid cod none).mp
                  hav a ha hroom' (by simp)
                show ¬(a.check_in < cod ∧ a.check_out > cid)
                omega
              simpa [hord, hav] using hgoal
            · rw [Bool.not_eq_true] at hav
              simpa [hord, hav] using (⟨hpw, hbills⟩ : StoreInv s)
  | updateBooking bid ci co =>
    unfold update_booking
    split
    · exact ⟨hpw, hbills⟩
    next bk hfind =>
      split
      · exact ⟨hpw, hbills⟩
      next cid hci =>
        split
        · exact ⟨hpw, hbills⟩
        next cod hco =>
          split
          · exact ⟨hpw, hbills⟩
          · split
            · exact ⟨hpw, hbills⟩
            next havneg =>
              have hav : is_room_available s.bookings bk.room_number cid cod
                  (some bid) = true := by
                simpa using havneg
              refine ⟨?_, hbills⟩
              apply set_booking_dates_pairwise hpw hfind
              intro b hb hroom hbid
              have hexcl : (some bid : Option String) ≠ some b.booking_id := by
                intro hh
                exact hbid (Option.some.inj hh).symm
              exact (availability_true_iff s.bookings bk.room_number cid cod
                (some bid)).mp hav b hb hroom hexcl
  | cancelBooking bid =>
    unfold cancel_booking
    cases find_booking s.bookings bid with
    | none => exact ⟨hpw, hbills⟩
    | some _ =>
      exact ⟨List.Pairwise.sublist (List.filter_sublist _) hpw, hbills⟩
  | generateBill new_id bid =>
    unfold generate_bill
    split
    · exact ⟨hpw, hbills⟩
    next bk hfind =>
      split
      · exact ⟨hpw, hbills⟩
      next hnone =>
        split
        · exact ⟨hpw, hbills⟩
        next room hroom =>
          refine ⟨hpw, ?_⟩
          intro bill hbill
          rcases List.mem_append.mp hbill with h | h
          · exact hbills bill h
          · rw [List.mem_singleton] at h
            subst h
            constructor
            · intro hstat
              exact absurd (show "UNPAID" = "PAID" from hstat) (by decide)
            · intro hpd
              exact absurd rfl hpd
  | processPayment today bid amt =>
    unfold process_payment
    cases find_bill s.bills bid with
    | none => exact ⟨hpw, hbills⟩
    | some bill =>
      by_cases hstat : (bill.status == "PAID") = true
      · simpa [hstat] using (⟨hpw, hbills⟩ : StoreInv s)
      · rw [Bool.not_eq_true] at hstat
        by_cases hamt : amt < bill.amount
        · simpa [hstat, hamt] using (⟨hpw, hbills⟩ : StoreInv s)
        · have hgoal : StoreInv { s with bills := set_paid s.bills bid today } := by
            refine ⟨hpw, ?_⟩
            intro x hx
            rcases set_paid_mem hx with h | ⟨b, hb, hxb⟩
            · exact hbills x h
            · subst hxb
              constructor
              · intro _
                exact Option.some_ne_none today
              · intro _
                rfl
          simpa [hstat, hamt] using hgoal

lemma reachable_inv {s : HotelState} (h : Reachable s) : StoreInv s := by
  induction h with
  | init =>
    refine ⟨List.Pairwise.nil, ?_⟩
    intro bill hb
    simp [initial_state] at hb
  | step hr hstep ih => exact step_preserves_inv hstep ih

/-- C1: in every state reachable from the empty store by the manager's
operations, no two stored bookings on the same room have overlapping
half-open date ranges. -/
theorem no_double_booking_invariant (s : HotelState) (h : Reachable s) :
    s.bookings.Pairwise (fun a b => a.room_number = b.room_number →
      ¬(a.check_in < b.check_out ∧ a.check_out > b.check_in)) :=
  ((reachable_inv h).1).imp (fun hsep => hsep.2)

/-- Witness for C1 at the reachable empty store. -/
theorem no_double_booking_invariant_witness :
    Reachable initial_state ∧
    initial_state.bookings.Pairwise (fun a b => a.room_number = b.room_number →
      ¬(a.check_in < b.check_out ∧ a.check_out > b.check_in)) :=
  ⟨Reachable.init, no_double_booking_invariant initial_state Reachable.init⟩

/-- C8: in every state reachable from the empty store by the manager's
operations, a stored bill has status "PAID" exactly when its payment date
is non-null. -/
theorem bill_status_iff_payment_date (s : HotelState) (h : Reachable s) :
    ∀ bill ∈ s.bills, (bill.status = "PAID" ↔ bill.payment_date ≠ none) :=
  (reachable_inv h).2

/-- Witness for C8 at the reachable empty store. -/
theorem bill_status_iff_payment_date_witness :
    Reachable initial_state ∧
    ∀ bill ∈ initial_state.bills, (bill.status = "PAID" ↔ bill.payment_date ≠ none) :=
  ⟨Reachable.init, bill_status_iff_payment_date initial_state Reachable.init⟩

lemma find_bill_set_paid {l : List Bill} {bid : String} (today : Int) {bill : Bill}
    (h : find_bill l bid = some bill) :
    find_bill (set_paid l bid today) bid =
      some { bill with status := "PAID", payment_date := some today } := by
  induction l with
  | nil => simp [find_bill] at h
  | cons b rest ih =>
    unfold find_bill at h ⊢
    simp only [set_paid]
    by_cases hb : (b.bill_id == bid) = true
    · rw [if_pos hb]
      simp only [List.find?, hb, Option.some.injEq] at h
      subst h
      simp [List.find?, hb]
    · rw [if_neg hb]
      have hbf : (b.bill_id == bid) = false := by simpa using hb
      simp only [List.find?, hbf] at h ⊢
      exact ih h

/-- C3: payment settlement lifecycle: on a stored UNPAID bill with null
payment date, an underpayment returns false and changes nothing; a payment
of at least the bill amount returns true and marks the stored bill PAID
with the current date; a repeated payment on the same bill id then returns
false and changes nothing. -/
theorem process_payment_lifecycle (s : HotelState) (bid : String) (bill : Bill)
    (amount amount2 : Rat) (today today2 : Int)
    (hfind : find_bill s.bills bid = some bill)
    (hunpaid : bill.status = "UNPAID")
    (hpd : bill.payment_date = none) :
    (amount < bill.amount → process_payment s today bid amount = (false, s)) ∧
    (bill.amount ≤ amount →
      (process_payment s today bid amount).1 = true ∧
      find_bill (process_payment s today bid amount).2.bills bid =
        some { bill with status := "PAID", payment_date := some today } ∧
      process_payment (process_payment s today bid amount).2 today2 bid amount2 =
        (false, (process_payment s today bid amount).2)) := by
  have hstat : (bill.status == "PAID") = false := by simp [hunpaid]
  constructor
  · intro hlt
    unfold process_payment
    rw [hfind]
    simp [hstat, hlt]
  · intro hge
    have hnlt : ¬(amount < bill.amount) := not_lt.mpr hge
    have hres : process_payment s today bid amount =
        (true, { s with bills := set_paid s.bills bid today }) := by
      unfold process_payment
      rw [hfind]
      simp [hstat, hnlt]
    rw [hres]
    refine ⟨rfl, find_bill_set_paid today hfind, ?_⟩
    unfold process_payment
    have h2 := find_bill_set_paid today hfind
    simp [h2]

/-- Store used by the C3 witness: one unpaid bill of 100. -/
def paydemo_state : HotelState :=
  HotelState.mk [] [] [] [Bill.mk "L1" "B7" 100 "UNPAID" none]

/-- Witness for C3: bill of 100, paid with 150 on day 7, retried on day 9. -/
theorem process_payment_lifecycle_witness :
    (find_bill paydemo_state.bills "L1" = some (Bill.mk "L1" "B7" 100 "UNPAID" none) ∧
     (Bill.mk "L1" "B7" 100 "UNPAID" none).status = "UNPAID" ∧
     (Bill.mk "L1" "B7" 100 "UNPAID" none).payment_date = none) ∧
    (((150 : Rat) < (Bill.mk "L1" "B7" 100 "UNPAID" none).amount →
        process_payment paydemo_state 7 "L1" 150 = (false, paydemo_state)) ∧
     ((Bill.mk "L1" "B7" 100 "UNPAID" none).amount ≤ (150 : Rat) →
        (process_payment paydemo_state 7 "L1" 150).1 = true ∧
        find_bill (process_payment paydemo_state 7 "L1" 150).2.bills "L1" =
          some { Bill.mk "L1" "B7" 100 "UNPAID" none with
                   status := "PAID", payment_date := some 7 } ∧
        process_payment (process_payment paydemo_state 7 "L1" 150).2 9 "L1" 150 =
          (false, (process_payment paydemo_state 7 "L1" 150).2))) :=
  ⟨⟨by decide, rfl, rfl⟩,
    process_payment_lifecycle paydemo_state "L1" (Bill.mk "L1" "B7" 100 "UNPAID" none)
      150 150 7 9 (by decide) rfl rfl⟩

lemma step_keeps_bill_amounts {s1 s2 : HotelState} (hstep : Step s1 s2) :
    ∀ bill ∈ s1.bills, ∃ bill2 ∈ s2.bills,
      bill2.bill_id = bill.bill_id ∧ bill2.amount = bill.amount := by
  intro bill hbill
  cases hstep with
  | addRoom n ty p =>
    unfold add_room
    repeat' split
    all_goals exact ⟨bill, hbill, rfl, rfl⟩
  | updateRoom n ty p =>
    unfold update_room
    repeat' split
    all_goals exact ⟨bill, hbill, rfl, rfl⟩
  | addGuest gid n ph em ad =>
    exact ⟨bill, hbill, rfl, rfl⟩
  | createBooking new_id gid rn ci co fresh =>
    unfold create_booking
    repeat' split
    all_goals exact ⟨bill, hbill, rfl, rfl⟩
  | updateBooking bid ci co =>
    unfold update_booking
    repeat' split
    all_goals exact ⟨bill, hbill, rfl, rfl⟩
  | cancelBooking bid =>
    unfold cancel_booking
    repeat' split
    all_goals exact ⟨bill, hbill, rfl, rfl⟩
  | generateBill new_id bid =>
    unfold generate_bill
    repeat' split
    all_goals first
      | exact ⟨bill, hbill, rfl, rfl⟩
      | exact ⟨bill, List.mem_append_left _ hbill, rfl, rfl⟩
  | processPayment today bid amt =>
    unfold process_payment
    repeat' split
    all_goals first
      | exact ⟨bill, hbill, rfl, rfl⟩
      | exact set_paid_keeps_amounts hbill

/-- C4: generate_bill computes the new bill's amount as the night count
(check-out minus check-in, in days) times the room's price at generation
time, and no manager operation ever changes the bill id or amount of a
bill already in the store — in particular a later update_room price change
leaves every existing bill's amount as it was. -/
theorem bill_amount_correct_and_frozen (s : HotelState) (new_bill_id bid : String)
    (booking : Booking) (room : Room)
    (hbk : find_booking s.bookings bid = some booking)
    (hnb : s.bills.find? (fun bill => bill.booking_id == bid) = none)
    (hr : find_room s.rooms booking.room_number = some room) :
    (generate_bill s new_bill_id bid).1 =
      some (Bill.mk new_bill_id bid
        (((booking.check_out - booking.check_in : Int) : Rat) * room.price)
        "UNPAID" none) ∧
    ∀ s1 s2, Step s1 s2 → ∀ bill ∈ s1.bills, ∃ bill2 ∈ s2.bills,
      bill2.bill_id = bill.bill_id ∧ bill2.amount = bill.amount := by
  constructor
  · simp [generate_bill, hbk, hnb, hr]
  · intro s1 s2 hstep
    exact step_keeps_bill_amounts hstep

/-- Room, booking and store used by the C4 witness: a 3-night booking
(days 0 to 3) on a room priced 100, no bills yet. -/
def billdemo_room : Room := Room.mk "101" "Single" 100 false

def billdemo_booking : Booking := Booking.mk "B1" "G1" "101" 0 3 true

def billdemo_state : HotelState :=
  HotelState.mk [billdemo_room] [] [billdemo_booking] []

/-- Witness for C4: generating the bill for the 3-night booking. -/
theorem bill_amount_correct_and_frozen_witness :
    (find_booking billdemo_state.bookings "B1" = some billdemo_booking ∧
     billdemo_state.bills.find? (fun bill => bill.booking_id == "B1") = none ∧
     find_room billdemo_state.rooms billdemo_booking.room_number = some billdemo_room) ∧
    ((generate_bill billdemo_state "X9" "B1").1 =
      some (Bill.mk "X9" "B1"
        (((billdemo_booking.check_out - billdemo_booking.check_in : Int) : Rat) *
          billdemo_room.price)
        "UNPAID" none) ∧
     ∀ s1 s2, Step s1 s2 → ∀ bill ∈ s1.bills, ∃ bill2 ∈ s2.bills,
       bill2.bill_id = bill.bill_id ∧ bill2.amount = bill.amount) :=
  ⟨⟨by decide, by decide, by decide⟩,
    bill_amount_correct_and_frozen billdemo_state "X9" "B1" billdemo_booking billdemo_room
      (by decide) (by decide) (by decide)⟩

/-- Store used by the C5 counterexample: a bill for booking "B9" exists,
but booking "B9" itself is no longer stored (it was cancelled). -/
def dangling_bill_state : HotelState :=
  HotelState.mk [] [] [] [Bill.mk "X1" "B9" 100 "UNPAID" none]

/-- Counterexample to C5 as stated: a bill whose booking_id is "B9" is in
the bills collection, yet generate_bill returns none — not that existing
bill — because it looks the booking up first and "B9" was hard-deleted. -/
theorem generate_bill_dangling_counterexample :
    dangling_bill_state.bills.find? (fun bill => bill.booking_id == "B9") =
      some (Bill.mk "X1" "B9" 100 "UNPAID" none) ∧
    generate_bill dangling_bill_state "Y2" "B9" = (none, dangling_bill_state) := by
  constructor
  · decide
  · rfl

lemma generate_bill_existing {t : HotelState} {bid id2 : String} {bk : Booking}
    {bill : Bill}
    (hbk : find_booking t.bookings bid = some bk)
    (hfind : t.bills.find? (fun b => b.booking_id == bid) = some bill) :
    generate_bill t id2 bid = (some bill, t) := by
  simp [generate_bill, hbk, hfind]

/-- C5 (amended): when the booking referenced by the id still exists, its
room resolves, and the store has at most one bill per booking: if a bill
for the booking already exists generate_bill returns it unchanged with the
store untouched, and two successive generate_bill calls return the same
bill with the second call changing nothing and exactly one bill for that
booking in the store. -/
theorem generate_bill_idempotent (s : HotelState) (bid id1 id2 : String)
    (booking : Booking)
    (hbk : find_booking s.bookings bid = some booking)
    (hroom : (find_room s.rooms booking.room_number).isSome = true)
    (hcount : (s.bills.filter (fun bill => bill.booking_id == bid)).length ≤ 1) :
    (∀ bill, s.bills.find? (fun bill => bill.booking_id == bid) = some bill →
      generate_bill s id1 bid = (some bill, s)) ∧
    ∃ bill, (generate_bill s id1 bid).1 = some bill ∧
      generate_bill (generate_bill s id1 bid).2 id2 bid =
        (some bill, (generate_bill s id1 bid).2) ∧
      ((generate_bill s id1 bid).2.bills.filter
        (fun bill => bill.booking_id == bid)).length = 1 := by
  cases hfind : s.bills.find? (fun bill => bill.booking_id == bid) with
  | some bill =>
    have hgen1 : generate_bill s id1 bid = (some bill, s) :=
      generate_bill_existing hbk hfind
    have hgen2 : generate_bill s id2 bid = (some bill, s) :=
      generate_bill_existing hbk hfind
    have hp := List.find?_some hfind
    have hmem : bill ∈ s.bills.filter (fun bill => bill.booking_id == bid) := by
      rw [List.mem_filter]
      exact ⟨List.mem_of_find?_eq_some hfind, hp⟩
    have hpos : 0 < (s.bills.filter (fun bill => bill.booking_id == bid)).length :=
      List.length_pos.mpr (List.ne_nil_of_mem hmem)
    constructor
    · intro b hb
      obtain rfl : bill = b := Option.some.inj hb
      exact hgen1
    · refine ⟨bill, by rw [hgen1], ?_, ?_⟩
      · rw [hgen1]
        exact hgen2
      · rw [hgen1]
        show (s.bills.filter (fun bill => bill.booking_id == bid)).length = 1
        omega
  | none =>
    obtain ⟨room, hroomeq⟩ := Option.isSome_iff_exists.mp hroom
    have hgen1 : generate_bill s id1 bid =
        (some (Bill.mk id1 bid
            (((booking.check_out - booking.check_in : Int) : Rat) * room.price)
            "UNPAID" none),
          { s with bills := s.bills ++
            [Bill.mk id1 bid
              (((booking.check_out - booking.check_in : Int) : Rat) * room.price)
              "UNPAID" none] }) := by
      simp [generate_bill, hbk, hfind, hroomeq]
    have hfind2 : (s.bills ++
        [Bill.mk id1 bid
          (((booking.check_out - booking.check_in : Int) : Rat) * room.price)
          "UNPAID" none]).find? (fun bill => bill.booking_id == bid) =
        some (Bill.mk id1 bid
          (((booking.check_out - booking.check_in : Int) : Rat) * room.price)
          "UNPAID" none) := by
      rw [List.find?_append, hfind]
      simp [List.find?]
    have hfil : s.bills.filter (fun bill => bill.booking_id == bid) = [] := by
      rw [List.filter_eq_nil_iff]
      exact List.find?_eq_none.mp hfind
    constructor
    · intro b hb
      exact absurd hb (by simp)
    · refine ⟨_, by rw [hgen1], ?_, ?_⟩
      · rw [hgen1]
        exact generate_bill_existing hbk hfind2
      · rw [hgen1]
        show ((s.bills ++
          [Bill.mk id1 bid
            (((booking.check_out - booking.check_in : Int) : Rat) * room.price)
            "UNPAID" none]).filter (fun bill => bill.booking_id == bid)).length = 1
        simp [List.filter_append, hfil]

/-- Witness for C5: billing the 3-night booking of the demo store twice. -/
theorem generate_bill_idempotent_witness :
    (find_booking billdemo_state.bookings "B1" = some billdemo_booking ∧
     (find_room billdemo_state.rooms billdemo_booking.room_number).isSome = true ∧
     (billdemo_state.bills.filter (fun bill => bill.booking_id == "B1")).length ≤ 1) ∧
    ((∀ bill,
        billdemo_state.bills.find? (fun bill => bill.booking_id == "B1") = some bill →
        generate_bill billdemo_state "Y1" "B1" = (some bill, billdemo_state)) ∧
     ∃ bill, (generate_bill billdemo_state "Y1" "B1").1 = some bill ∧
       generate_bill (generate_bill billdemo_state "Y1" "B1").2 "Y2" "B1" =
         (some bill, (generate_bill billdemo_state "Y1" "B1").2) ∧
       ((generate_bill billdemo_state "Y1" "B1").2.bills.filter
         (fun bill => bill.booking_id == "B1")).length = 1) :=
  ⟨⟨by decide, by decide, by decide⟩,
    generate_bill_idempotent billdemo_state "B1" "Y1" "Y2" billdemo_booking
      (by decide) (by decide) (by decide)⟩

lemma revenue_scan_spec (bookings : List Booking) (lo hi : Int) (bills : List Bill) :
    (revenue_scan bookings lo hi bills).1 =
      ((bills.filter (fun bill =>
          (find_booking bookings bill.booking_id).isSome &&
          (bill.status == "PAID") &&
          (match bill.payment_date with
           | some pd => decide (lo ≤ pd) && decide (pd ≤ hi)
           | none => false))).map (fun bill => bill.amount)).sum ∧
    (revenue_scan bookings lo hi bills).2.2 =
      (bills.filter (fun bill =>
          (bill.status == "UNPAID") &&
          (match find_booking bookings bill.booking_id with
           | some bk => decide (bk.check_in ≤ hi) && decide (lo ≤ bk.check_out)
           | none => false))).length := by
  induction bills with
  | nil => simp [revenue_scan]
  | cons bill rest ih =>
    obtain ⟨ih1, ih2⟩ := ih
    simp only [revenue_scan]
    cases hfb : find_booking bookings bill.booking_id with
    | none =>
      constructor
      · rw [ih1]
        simp [List.filter_cons, hfb]
      · rw [ih2]
        simp [List.filter_cons, hfb]
    | some bk =>
      constructor
      · rw [ih1]
        cases hP : (bill.status == "PAID") &&
            (match bill.payment_date with
             | some pd => decide (lo ≤ pd) && decide (pd ≤ hi)
             | none => false) with
        | false => simp [List.filter_cons, hfb, hP]
        | true =>
          simp [List.filter_cons, hfb, hP]
          exact add_comm _ _
      · rw [ih2]
        cases hU : (bill.status == "UNPAID") &&
            (decide (bk.check_in ≤ hi) && decide (lo ≤ bk.check_out)) with
        | false => simp [List.filter_cons, hfb, hU]
        | true => simp [List.filter_cons, hfb, hU]

/-- C7 (amended): for a valid range with end at or after start, the revenue
report's total is the sum of the amounts of bills that are PAID, have their
payment date inside the inclusive range, and whose booking still exists in
the store (the scan silently skips bills whose booking cannot be resolved);
the unpaid count is the number of UNPAID bills whose booking exists and
whose stay interval intersects the range. -/
theorem revenue_report_totals (s : HotelState) (lo hi : Int) (h : lo ≤ hi) :
    ∃ paid_count : Nat,
      generate_revenue_report s (some lo) (some hi) =
        Except.ok
          (((s.bills.filter (fun bill =>
              (find_booking s.bookings bill.booking_id).isSome &&
              (bill.status == "PAID") &&
              (match bill.payment_date with
               | some pd => decide (lo ≤ pd) && decide (pd ≤ hi)
               | none => false))).map (fun bill => bill.amount)).sum,
           paid_count,
           (s.bills.filter (fun bill =>
              (bill.status == "UNPAID") &&
              (match find_booking s.bookings bill.booking_id with
               | some bk => decide (bk.check_in ≤ hi) && decide (lo ≤ bk.check_out)
               | none => false))).length) := by
  refine ⟨(revenue_scan s.bookings lo hi s.bills).2.1, ?_⟩
  have hnot : ¬ hi < lo := not_lt.mpr h
  simp only [generate_revenue_report]
  rw [if_neg hnot]
  obtain ⟨h1, h2⟩ := revenue_scan_spec s.bookings lo hi s.bills
  rw [← h1, ← h2]

/-- Witness for C7 at the reachable empty store over the range 0..10. -/
theorem revenue_report_totals_witness :
    (0 : Int) ≤ 10 ∧
    ∃ paid_count : Nat,
      generate_revenue_report initial_state (some 0) (some 10) =
        Except.ok
          (((initial_state.bills.filter (fun bill =>
              (find_booking initial_state.bookings bill.booking_id).isSome &&
              (bill.status == "PAID") &&
              (match bill.payment_date with
               | some pd => decide ((0 : Int) ≤ pd) && decide (pd ≤ (10 : Int))
               | none => false))).map (fun bill => bill.amount)).sum,
           paid_count,
           (initial_state.bills.filter (fun bill =>
              (bill.status == "UNPAID") &&
              (match find_booking initial_state.bookings bill.booking_id with
               | some bk =>
                 decide (bk.check_in ≤ (10 : Int)) && decide ((0 : Int) ≤ bk.check_out)
               | none => false))).length) :=
  ⟨by decide, revenue_report_totals initial_state 0 10 (by decide)⟩

/-- Store used by the C7 counterexample: one PAID bill of 100 with payment
date 5, whose booking "K1" was cancelled and is gone from the store. -/
def dangling_paid_state : HotelState :=
  HotelState.mk [] [] [] [Bill.mk "B1" "K1" 100 "PAID" (some 5)]

/-- Counterexample to C7 as stated: over the inclusive range 0..10 the
report's total revenue is 0, yet the store holds a PAID bill of amount 100
with payment date 5 inside the range — the claimed total, the sum over all
PAID bills paid in range, is 100.  The bill is skipped because its booking
no longer resolves. -/
theorem revenue_report_dangling_counterexample :
    generate_revenue_report dangling_paid_state (some 0) (some 10) =
      Except.ok (0, 0, 0) ∧
    ((dangling_paid_state.bills.filter (fun bill =>
        (bill.status == "PAID") &&
        (match bill.payment_date with
         | some pd => decide ((0 : Int) ≤ pd) && decide (pd ≤ (10 : Int))
         | none => false))).map (fun bill => bill.amount)).sum = 100 ∧
    (0 : Rat) ≠ 100 := by
  refine ⟨rfl, ?_, by norm_num⟩
  norm_num [dangling_paid_state, List.filter]
